import Mathlib

/-!
Shallow embedding of the soils query-and-aggregation pipeline of
`functions/api/soils.js` (landsage-app): the geometry adapter
`toEsriPolygonFromGeoJSON`, the risk-flag classifier `deriveFlags`, the
paginated query engine `querySoilsPaged`, and the deduplication and
aggregation loop of `onRequest`.

JavaScript dynamic values that can reach the attribute fields are modelled
by `JsValue` (absent / null / string / number). Machine floats never matter
here (numbers are only coerced to strings or tested for truthiness), so
numbers are embedded as `Int`. A thrown JS exception is modelled by
`Except` / `Option` failure.
-/

namespace Landsage

/-- A raw JavaScript attribute value as it can appear in a feature record:
missing key (`undefined`), `null`, a string, or a number. -/
inductive JsValue where
  | absent
  | null
  | str (s : String)
  | num (n : Int)
deriving Repr, DecidableEq

/-- JS truthiness for the values `JsValue` can take: `undefined`, `null`,
`""` and `0` are falsy, everything else truthy. -/
def JsValue.truthy : JsValue → Bool
  | .absent => false
  | .null => false
  | .str s => s ≠ ""
  | .num n => n ≠ 0

/-- The JS expression `v || ""`: falsy values are replaced by the empty
string. -/
def jsOrEmpty (v : JsValue) : JsValue :=
  if v.truthy then v else .str ""

/-- ASCII uppercase of a string, computed on its character list. Lean's
builtin `String.toUpper` is extensionally the same on these inputs but is
compiled by well-founded recursion and does not reduce under `decide`;
this version does. It matches what the JS `toUpperCase` does on the ASCII
vocabulary the classifier compares against. -/
def strUpper (s : String) : String :=
  ⟨s.data.map Char.toUpper⟩

/-- ASCII lowercase of a string, on its character list (see `strUpper`). -/
def strLower (s : String) : String :=
  ⟨s.data.map Char.toLower⟩

/-- The JS method call `v.toUpperCase()`: defined on strings only; on any
other value the call throws a TypeError, modelled as `none`. -/
def jsToUpperCase : JsValue → Option String
  | .str s => some (Landsage.strUpper s)
  | _ => none

/-- The JS method call `v.toString()`: defined on strings and numbers; on
`null`/`undefined` it throws, modelled as `none`. -/
def jsToString : JsValue → Option String
  | .str s => some s
  | .num n => some (toString n)
  | _ => none

/-- The JS coercion `${v ?? ""}` used to build the identity key: nullish
values become the empty string, other values are stringified. -/
def jsNullishText : JsValue → String
  | .absent => ""
  | .null => ""
  | .str s => s
  | .num n => toString n

/-- The JS expression `v ?? null` used when storing headline properties. -/
def jsNullishNull : JsValue → JsValue
  | .absent => .null
  | v => v

/-- JS `s.includes(pat)`: `pat` occurs as a contiguous substring of `s`. -/
def strIncludes (s pat : String) : Bool :=
  decide (List.IsInfix pat.data s.data)

/-- Case-insensitive substring containment, the reading of the spec phrase
"contains the substring X case-insensitively". -/
def containsInsensitive (s pat : String) : Bool :=
  strIncludes (strUpper s) (strUpper pat)

/-! ## Geometry adapter (`toEsriPolygonFromGeoJSON`, soils.js lines 26-46) -/

/-- A GeoJSON position, a list of coordinate numbers. Coordinates are only
carried around, never computed with, so `Int` stands in for the JS number. -/
abbrev Position := List Int

/-- A GeoJSON linear ring: a list of positions. -/
abbrev Ring := List Position

/-- The GeoJSON-like inputs the adapter inspects, keyed by their `type`
field. `polygon` carries an optional coordinates field (absent
`coordinates` leaves `rings` undefined, hence falsy). A `Feature` wrapper
carries its inner geometry; `otherType` covers every other `type` value
(e.g. "Point", "LineString") or a missing one. Inputs on which the source
would crash with a TypeError before reaching its own checks (a Feature
whose `geometry` field is nullish, a MultiPolygon whose `coordinates`
field is nullish) are outside this model. -/
inductive GeoInput where
  | polygon (coordinates : Option (List Ring))
  | multiPolygon (coordinates : List (List Ring))
  | feature (geometry : GeoInput)
  | otherType (ty : Option String)
deriving Repr, DecidableEq

/-- The spatial reference tag of the produced query geometry. -/
structure SpatialReference where
  wkid : Nat
deriving Repr, DecidableEq

/-- The ESRI polygon produced by the adapter. -/
structure EsriPolygon where
  rings : List Ring
  spatialReference : SpatialReference
deriving Repr, DecidableEq

/-- The two errors the adapter throws: "Missing geometry" and "Geometry
must be Polygon or MultiPolygon". The spec groups both under its
`InvalidGeometry` failure class. -/
inductive GeomError where
  | missingGeometry
  | invalidGeometry
deriving Repr, DecidableEq

/-- The spec failure class `InvalidGeometry` (spec section 7 groups the
missing-input message and the wrong-type message into this one class). -/
def isInvalidGeometryFailure (r : Except GeomError EsriPolygon) : Prop :=
  r = .error .missingGeometry ∨ r = .error .invalidGeometry

/-- Embedding of `toEsriPolygonFromGeoJSON` (soils.js lines 26-46):
reject absent input; unwrap a Feature once; take `coordinates` of a
Polygon or the first member of a MultiPolygon as the rings; reject a
nullish rings value; tag WKID 4326. An empty coordinates array is a
truthy JS value, so it passes the rings check. -/
def toEsriPolygonFromGeoJSON (input : Option GeoInput) :
    Except GeomError EsriPolygon :=
  match input with
  | none => .error .missingGeometry
  | some inp =>
    let g := match inp with
      | .feature geom => geom
      | other => other
    let rings : Option (List Ring) := match g with
      | .polygon coords => coords
      | .multiPolygon coords => coords.head?
      | _ => none
    match rings with
    | none => .error .invalidGeometry
    | some rs => .ok { rings := rs, spatialReference := { wkid := 4326 } }

/-- The geometry the adapter actually inspects: a Feature wrapper is
unwrapped one level, everything else inspected directly. -/
def resolveGeom : GeoInput → GeoInput
  | .feature g => g
  | g => g

/-- Whether the resolved geometry is typed Polygon or MultiPolygon. -/
def isPolygonalType : GeoInput → Bool
  | .polygon _ => true
  | .multiPolygon _ => true
  | _ => false

/-- Whether a polygonal geometry fails to yield a ring list: a Polygon
with absent coordinates, or a MultiPolygon with no member polygon. -/
def lacksRingList : GeoInput → Bool
  | .polygon coords => coords.isNone
  | .multiPolygon coords => coords.isEmpty
  | _ => false

/-! ## Risk-flag classifier (`deriveFlags`, soils.js lines 52-80) -/

/-- The four boolean risk flags. -/
structure RiskFlags where
  poorDrainage : Bool
  hydricLikely : Bool
  floodingRisk : Bool
  pondingRisk : Bool
deriving Repr, DecidableEq

/-- The attribute fields of one record that the pipeline reads. The raw
record is an open mapping; fields it lacks are `JsValue.absent`. -/
structure SoilProps where
  musym : JsValue := .absent
  muname : JsValue := .absent
  mukey : JsValue := .absent
  drclassdcd : JsValue := .absent
  hydgrpdcd : JsValue := .absent
  hydclprs : JsValue := .absent
  flodfreqdcd : JsValue := .absent
  pondfreqprs : JsValue := .absent
  wtdepannmin : JsValue := .absent
  wtdepaprjunmin : JsValue := .absent
  wss_link : JsValue := .absent
deriving Repr, DecidableEq

/-- Embedding of `deriveFlags` (soils.js lines 52-80). The source computes
`(props?.drclassdcd || "").toUpperCase()` and
`(props?.flodfreqdcd || "").toUpperCase()` with no intervening
`toString()`, so a truthy non-string value there throws a TypeError
(`none`); the hydric and ponding fields go through `toString()` first and
cannot throw after the `|| ""` coercion. -/
def deriveFlags (props : SoilProps) : Option RiskFlags := do
  let dr ← jsToUpperCase (jsOrEmpty props.drclassdcd)
  let hydric ← (jsToString (jsOrEmpty props.hydclprs)).map Landsage.strLower
  let flod ← jsToUpperCase (jsOrEmpty props.flodfreqdcd)
  let pond ← (jsToString (jsOrEmpty props.pondfreqprs)).map Landsage.strLower
  pure {
    poorDrainage := strIncludes dr "POORLY" || strIncludes dr "VERY POORLY"
      || strIncludes dr "SOMEWHAT POORLY"
    hydricLikely := hydric == "yes" || hydric == "y"
      || strIncludes hydric "hydric" || strIncludes hydric "%"
      || strIncludes hydric "likely"
    floodingRisk := strIncludes flod "FREQUENT" || strIncludes flod "OCCASIONAL"
      || strIncludes flod "COMMON"
    pondingRisk := strIncludes pond "FREQUENT" || strIncludes pond "OCCASIONAL"
      || strIncludes pond "COMMON" }

/-- The text the classifier effectively matches against for a field coerced
by `v || ""` followed by a string method: the string content when the
coerced value is a string, the decimal rendering when it is a number. -/
def coercedText (v : JsValue) : String :=
  match jsOrEmpty v with
  | .str s => s
  | .num n => toString n
  | _ => ""

/-! ## Paginated query engine (`querySoilsPaged`, soils.js lines 99-149) -/

/-- `PAGE_SIZE` (soils.js line 17): requested records per page. -/
def PAGE_SIZE : Nat := 2000

/-- `MAX_FEATURES_TOTAL` (soils.js line 14): hard cap on accumulated
records. -/
def MAX_FEATURES_TOTAL : Nat := 20000

/-- One upstream ArcGIS response, as the loop body reads it: the HTTP
success flag with status and body text, the optional `features` array
(`arc?.features || []` defaults a nullish one to empty) and the
`exceededTransferLimit` flag after `Boolean(...)` coercion. The element
type of a feature is irrelevant to the paging logic and left abstract. -/
structure ArcResponse (α : Type) where
  ok : Bool
  status : Nat
  body : String
  features : Option (List α)
  exceededTransferLimit : Bool

/-- Outcome of the paging loop: a normal return, one of the two thrown
errors, or `running` when the fuel bound was reached while the source
loop would still be iterating. -/
inductive PagedOutcome (α : Type) where
  | done (features : List α)
  | upstreamFailed (status : Nat) (body : String)
  | resultTooLarge
  | running
deriving DecidableEq

/-- Embedding of the `while (true)` loop of `querySoilsPaged`
(soils.js lines 103-146), one fuel unit per iteration. The upstream is a
function from the requested `resultOffset` to the response. Besides the
outcome it returns the list of offsets at which remote calls were issued,
in order. Each iteration: fetch, fail on a non-ok response, concatenate
the page, fail once the accumulated length exceeds the cap, stop when the
transfer-limit flag is unset and the page is not full-sized, otherwise
advance the offset by the page size. -/
def querySoilsPagedAux {α : Type} (upstream : Nat → ArcResponse α) :
    Nat → List α → Nat → PagedOutcome α × List Nat
  | 0, _, _ => (.running, [])
  | fuel + 1, allFeatures, offset =>
    let resp := upstream offset
    if !resp.ok then (.upstreamFailed resp.status resp.body, [offset])
    else
      let page := resp.features.getD []
      let all := allFeatures ++ page
      if all.length > MAX_FEATURES_TOTAL then (.resultTooLarge, [offset])
      else
        let exceeded := resp.exceededTransferLimit
        let gotFullPage := page.length == PAGE_SIZE
        if !exceeded && !gotFullPage then (.done all, [offset])
        else
          let rest := querySoilsPagedAux upstream fuel all (offset + PAGE_SIZE)
          (rest.1, offset :: rest.2)

/-- `querySoilsPaged` entry point: empty accumulator, offset 0. -/
def querySoilsPaged {α : Type} (upstream : Nat → ArcResponse α) (fuel : Nat) :
    PagedOutcome α × List Nat :=
  querySoilsPagedAux upstream fuel [] 0

/-! ## Deduplication and aggregation (`onRequest`, soils.js lines 204-253) -/

/-- The stored value of one deduplicated map unit: the headline properties
(each defaulted to null via `?? null`) plus the derived flags. -/
structure CanonicalSoilUnit where
  mukey : JsValue
  musym : JsValue
  muname : JsValue
  drclassdcd : JsValue
  hydgrpdcd : JsValue
  hydclprs : JsValue
  flodfreqdcd : JsValue
  pondfreqprs : JsValue
  wtdepannmin : JsValue
  wtdepaprjunmin : JsValue
  wss_link : JsValue
  flags : RiskFlags
deriving Repr, DecidableEq

/-- The identity key (soils.js line 208):
the template literal with the three fields joined by a bar. -/
def identityKey (p : SoilProps) : String :=
  jsNullishText p.musym ++ "|" ++ jsNullishText p.muname ++ "|"
    ++ jsNullishText p.mukey

/-- The unit stored on first insertion (soils.js lines 212-226). -/
def mkUnit (p : SoilProps) (flags : RiskFlags) : CanonicalSoilUnit :=
  { mukey := jsNullishNull p.mukey
    musym := jsNullishNull p.musym
    muname := jsNullishNull p.muname
    drclassdcd := jsNullishNull p.drclassdcd
    hydgrpdcd := jsNullishNull p.hydgrpdcd
    hydclprs := jsNullishNull p.hydclprs
    flodfreqdcd := jsNullishNull p.flodfreqdcd
    pondfreqprs := jsNullishNull p.pondfreqprs
    wtdepannmin := jsNullishNull p.wtdepannmin
    wtdepaprjunmin := jsNullishNull p.wtdepaprjunmin
    wss_link := jsNullishNull p.wss_link
    flags := flags }

/-- One step of the dedup loop (soils.js lines 206-228). The JS `Map` is
modelled as an association list in insertion order; `unique.has(key)`
becomes a lookup. `deriveFlags` runs only on first insertion and its
possible TypeError aborts the whole request (`none`). -/
def insertRecord (unique : List (String × CanonicalSoilUnit))
    (p : SoilProps) : Option (List (String × CanonicalSoilUnit)) :=
  let key := identityKey p
  if (unique.lookup key).isSome then some unique
  else (deriveFlags p).map fun flags => unique ++ [(key, mkUnit p flags)]

/-- The dedup loop from an intermediate map state, one record per step. -/
def buildUniqueFrom (unique : List (String × CanonicalSoilUnit)) :
    List SoilProps → Option (List (String × CanonicalSoilUnit))
  | [] => some unique
  | p :: rest =>
    match insertRecord unique p with
    | none => none
    | some unique2 => buildUniqueFrom unique2 rest

/-- The full dedup loop over the records in arrival order. -/
def buildUnique (records : List SoilProps) :
    Option (List (String × CanonicalSoilUnit)) :=
  buildUniqueFrom [] records

/-- The four aggregate counters. -/
structure AggregateSummary where
  poorDrainage : Nat
  hydricLikely : Nat
  floodingRisk : Nat
  pondingRisk : Nat
deriving Repr, DecidableEq

/-- The `if (flag) counter += 1` increment of the aggregation loop. -/
def flagIncr (b : Bool) : Nat := if b then 1 else 0

/-- The aggregation loop over `unique.values()` (soils.js lines 231-243). -/
def aggregateFlags (units : List CanonicalSoilUnit) : AggregateSummary :=
  units.foldl
    (fun agg u =>
      { poorDrainage := agg.poorDrainage + flagIncr u.flags.poorDrainage
        hydricLikely := agg.hydricLikely + flagIncr u.flags.hydricLikely
        floodingRisk := agg.floodingRisk + flagIncr u.flags.floodingRisk
        pondingRisk := agg.pondingRisk + flagIncr u.flags.pondingRisk })
    ⟨0, 0, 0, 0⟩

/-- The summary part of the response payload (soils.js lines 245-253):
raw record count, distinct-unit count, the counters, and the stored units
truncated to the first 50. The `layer`, `source` and `geojson` fields
carry no aggregation logic and are omitted. -/
structure SoilsPayload where
  count : Nat
  distinctMapUnits : Nat
  aggregateFlagsByMapUnit : AggregateSummary
  uniqueMapUnits : List CanonicalSoilUnit
deriving Repr, DecidableEq

/-- Builds the payload summary fields from the converted record list. -/
def buildPayload (records : List SoilProps) : Option SoilsPayload :=
  (buildUnique records).map fun unique =>
    { count := records.length
      distinctMapUnits := unique.length
      aggregateFlagsByMapUnit := aggregateFlags (unique.map Prod.snd)
      uniqueMapUnits := (unique.map Prod.snd).take 50 }

/-- Spec-side description of what the stored unit for a key must be: the
unit built from the first record in arrival order bearing that key. -/
def firstUnitSpec (records : List SoilProps) (key : String) :
    Option CanonicalSoilUnit :=
  (records.find? fun p => identityKey p == key).bind
    fun p => (deriveFlags p).map (mkUnit p)

/-- Spec-side first-seen key order, threaded from an already-seen list. -/
def firstSeenKeysFrom (seen : List String) (records : List SoilProps) :
    List String :=
  records.foldl
    (fun acc p => if identityKey p ∈ acc then acc else acc ++ [identityKey p])
    seen

/-- The distinct identity keys of a record list in first-seen order. -/
def firstSeenKeys (records : List SoilProps) : List String :=
  firstSeenKeysFrom [] records

/-- The concrete record of the classifier example in spec section 8. -/
def exampleRecordC5 : SoilProps :=
  { drclassdcd := .str "Very poorly drained", hydclprs := .str "",
    flodfreqdcd := .str "", pondfreqprs := .str "" }

/-- A record whose drainage-class field carries a truthy number. -/
def numericDrainageRecord : SoilProps := { drclassdcd := .num 5 }

/-- A field value on which the `(v || "").toUpperCase()` pattern cannot
throw: anything except a truthy (non-zero) number. -/
def isUpperSafe : JsValue → Bool
  | .num n => n == 0
  | _ => true

/-- Replaces a nullish value by the empty string, the normalization the
spec says the classifier applies to missing and null fields. -/
def emptyIfNullish : JsValue → JsValue
  | .absent => .str ""
  | .null => .str ""
  | v => v

/-- The record with its four classifier source fields normalized. -/
def defaultNullishFields (p : SoilProps) : SoilProps :=
  { p with
    drclassdcd := emptyIfNullish p.drclassdcd
    hydclprs := emptyIfNullish p.hydclprs
    flodfreqdcd := emptyIfNullish p.flodfreqdcd
    pondfreqprs := emptyIfNullish p.pondfreqprs }

/-! ## Helper lemmas -/

theorem jsOrEmpty_str (s : String) : jsOrEmpty (.str s) = .str s := by
  by_cases h : s = "" <;> simp [jsOrEmpty, JsValue.truthy, h]

theorem jsOrEmpty_emptyIfNullish (v : JsValue) :
    jsOrEmpty (emptyIfNullish v) = jsOrEmpty v := by
  cases v <;> simp [emptyIfNullish, jsOrEmpty, JsValue.truthy]

theorem upperSucceeds {v : JsValue} (h : isUpperSafe v = true) :
    ∃ s, jsToUpperCase (jsOrEmpty v) = some s := by
  cases v with
  | num n =>
    have hn : n = 0 := by simpa [isUpperSafe] using h
    subst hn
    simp [jsOrEmpty, JsValue.truthy, jsToUpperCase]
  | str s => exact ⟨strUpper s, by rw [jsOrEmpty_str]; rfl⟩
  | absent => exact ⟨strUpper "", rfl⟩
  | null => exact ⟨strUpper "", rfl⟩

theorem toStringSucceeds (v : JsValue) :
    ∃ s, jsToString (jsOrEmpty v) = some s := by
  cases v with
  | num n =>
    by_cases hn : n = 0 <;> simp [jsOrEmpty, JsValue.truthy, jsToString, hn]
  | str s => exact ⟨s, by rw [jsOrEmpty_str]; rfl⟩
  | absent => exact ⟨"", rfl⟩
  | null => exact ⟨"", rfl⟩

theorem jsToUpperCase_orEmpty_eq {v : JsValue} {s : String}
    (h : jsToUpperCase (jsOrEmpty v) = some s) :
    s = strUpper (coercedText v) := by
  cases v with
  | num n =>
    by_cases hn : n = 0
    · subst hn
      simp [jsOrEmpty, JsValue.truthy, jsToUpperCase, coercedText] at h ⊢
      exact h.symm
    · simp [jsOrEmpty, JsValue.truthy, jsToUpperCase, hn] at h
  | str t =>
    rw [jsOrEmpty_str] at h
    simp [jsToUpperCase, coercedText, jsOrEmpty_str] at h ⊢
    exact h.symm
  | absent =>
    simp [jsOrEmpty, JsValue.truthy, jsToUpperCase, coercedText] at h ⊢
    exact h.symm
  | null =>
    simp [jsOrEmpty, JsValue.truthy, jsToUpperCase, coercedText] at h ⊢
    exact h.symm

theorem strIncludes_subsumes {s pat1 pat2 : String}
    (hinf : List.IsInfix pat1.data pat2.data)
    (h : strIncludes s pat2 = true) : strIncludes s pat1 = true := by
  simp only [strIncludes, decide_eq_true_eq] at h ⊢
  exact hinf.trans h

/-! ## Claim theorems: geometry adapter -/

/-- C8: for every Polygon input, bare or wrapped in a Feature, the adapter
returns exactly the input coordinate rings (point order and count
preserved, since the ring list is passed through unchanged) tagged with
WKID 4326; for every MultiPolygon input it returns exactly the first
member polygon's rings and ignores the remaining members. -/
theorem C8_rings_preserved_and_first_member (rs first : List Ring)
    (rest : List (List Ring)) :
    toEsriPolygonFromGeoJSON (some (.polygon (some rs)))
        = .ok ⟨rs, ⟨4326⟩⟩
    ∧ toEsriPolygonFromGeoJSON (some (.feature (.polygon (some rs))))
        = .ok ⟨rs, ⟨4326⟩⟩
    ∧ toEsriPolygonFromGeoJSON (some (.multiPolygon (first :: rest)))
        = .ok ⟨first, ⟨4326⟩⟩
    ∧ toEsriPolygonFromGeoJSON (some (.feature (.multiPolygon (first :: rest))))
        = .ok ⟨first, ⟨4326⟩⟩ :=
  ⟨rfl, rfl, rfl, rfl⟩

/-- C9: the adapter fails with the spec failure class InvalidGeometry
(either of the two thrown messages) exactly when the input is absent, or
the geometry left after unwrapping a Feature wrapper is not typed
Polygon or MultiPolygon, or it yields no ring list (a Polygon with
absent coordinates, a MultiPolygon with no member). -/
theorem C9_invalid_geometry_iff (input : Option GeoInput) :
    isInvalidGeometryFailure (toEsriPolygonFromGeoJSON input) ↔
      (input = none
        ∨ ∃ g, input = some g
            ∧ (isPolygonalType (resolveGeom g) = false
                ∨ lacksRingList (resolveGeom g) = true)) := by
  rcases input with _ | g
  · simp [toEsriPolygonFromGeoJSON, isInvalidGeometryFailure]
  · rcases g with coords | coords | inner | ty
    · rcases coords with _ | rs <;>
        simp [toEsriPolygonFromGeoJSON, isInvalidGeometryFailure, resolveGeom,
          isPolygonalType, lacksRingList]
    · rcases coords with _ | ⟨r, rest⟩ <;>
        simp [toEsriPolygonFromGeoJSON, isInvalidGeometryFailure, resolveGeom,
          isPolygonalType, lacksRingList]
    · rcases inner with coords | coords | inner2 | ty2
      · rcases coords with _ | rs <;>
          simp [toEsriPolygonFromGeoJSON, isInvalidGeometryFailure, resolveGeom,
            isPolygonalType, lacksRingList]
      · rcases coords with _ | ⟨r, rest⟩ <;>
          simp [toEsriPolygonFromGeoJSON, isInvalidGeometryFailure, resolveGeom,
            isPolygonalType, lacksRingList]
      · simp [toEsriPolygonFromGeoJSON, isInvalidGeometryFailure, resolveGeom,
          isPolygonalType, lacksRingList]
      · simp [toEsriPolygonFromGeoJSON, isInvalidGeometryFailure, resolveGeom,
          isPolygonalType, lacksRingList]
    · simp [toEsriPolygonFromGeoJSON, isInvalidGeometryFailure, resolveGeom,
        isPolygonalType, lacksRingList]

/-- C10: a degenerate Polygon with an empty coordinates array passes the
adapter (an empty JS array is truthy, so the rings check does not fire):
the result is a query geometry with no rings and WKID 4326, not an
InvalidGeometry failure. The at-least-one-closed-ring invariant is never
checked. -/
theorem C10_empty_polygon_accepted :
    toEsriPolygonFromGeoJSON (some (.polygon (some [])))
        = .ok ⟨[], ⟨4326⟩⟩
    ∧ ¬ isInvalidGeometryFailure
        (toEsriPolygonFromGeoJSON (some (.polygon (some [])))) :=
  ⟨rfl, by simp [toEsriPolygonFromGeoJSON, isInvalidGeometryFailure]⟩

/-! ## Claim theorems: classifier -/

/-- C4 counterexample: a record whose drainage-class field holds the
number 5 makes `deriveFlags` throw a TypeError (the source calls
`toUpperCase` on the field after `|| ""`, and a truthy number has no such
method), so the classifier does not succeed on every record with numeric
fields. -/
theorem C4_counterexample_numeric_drainage :
    deriveFlags numericDrainageRecord = none := by decide

/-- C4 (amended): `deriveFlags` never fails provided the drainage-class
and flood-frequency fields are not truthy numbers (the hydric and
ponding fields are safe for any value); missing or null source fields
are treated as empty strings (normalizing them to empty strings does not
change the outcome); and `deriveFlags` on the empty record returns all
four flags false without failing. -/
theorem C4_amended_classifier_totality :
    (∀ props : SoilProps, isUpperSafe props.drclassdcd = true →
        isUpperSafe props.flodfreqdcd = true →
        ∃ flags, deriveFlags props = some flags)
    ∧ (∀ props : SoilProps,
        deriveFlags props = deriveFlags (defaultNullishFields props))
    ∧ deriveFlags {} = some ⟨false, false, false, false⟩ := by
  refine ⟨?_, ?_, by decide⟩
  · intro props h1 h2
    obtain ⟨dr, hdr⟩ := upperSucceeds h1
    obtain ⟨hy, hhy⟩ := toStringSucceeds props.hydclprs
    obtain ⟨fl, hfl⟩ := upperSucceeds h2
    obtain ⟨po, hpo⟩ := toStringSucceeds props.pondfreqprs
    have hsome : (deriveFlags props).isSome := by
      simp [deriveFlags, hdr, hhy, hfl, hpo]
    exact Option.isSome_iff_exists.mp hsome
  · intro props
    simp [deriveFlags, defaultNullishFields, jsOrEmpty_emptyIfNullish]

/-- C4 witness: the amended totality applied to the empty record. -/
theorem C4_amended_classifier_totality_witness :
    isUpperSafe (SoilProps.drclassdcd {}) = true
    ∧ ∃ flags, deriveFlags {} = some flags :=
  ⟨rfl, C4_amended_classifier_totality.1 {} rfl rfl⟩

/-- C5: whenever `deriveFlags` succeeds, the poorDrainage flag is true
exactly when the coerced drainage-class text contains "poorly"
case-insensitively (the VERY POORLY and SOMEWHAT POORLY disjuncts of the
source are subsumed by the POORLY one); and on the spec example record
the result is poorDrainage true with the other three flags false. -/
theorem C5_poor_drainage_iff_poorly :
    (∀ (props : SoilProps) (flags : RiskFlags),
        deriveFlags props = some flags →
        flags.poorDrainage
          = containsInsensitive (coercedText props.drclassdcd) "poorly")
    ∧ deriveFlags exampleRecordC5 = some ⟨true, false, false, false⟩ := by
  refine ⟨?_, by decide⟩
  intro props flags h
  simp only [deriveFlags, bind, Option.bind_eq_some, Option.map_eq_some',
    pure, Option.some.injEq] at h
  obtain ⟨dr, hdr, hy, hhy, fl, hfl, po, hpo, hrec⟩ := h
  subst hrec
  have hdreq := jsToUpperCase_orEmpty_eq hdr
  subst hdreq
  have hpat : strUpper "poorly" = "POORLY" := by decide
  simp only [containsInsensitive, hpat]
  cases ha : strIncludes (strUpper (coercedText props.drclassdcd)) "POORLY" with
  | true => simp [ha]
  | false =>
    cases hb : strIncludes (strUpper (coercedText props.drclassdcd))
        "VERY POORLY" with
    | true =>
      exact absurd
        (@strIncludes_subsumes (strUpper (coercedText props.drclassdcd))
          "POORLY" "VERY POORLY" (by decide) hb) (by simp [ha])
    | false =>
      cases hc : strIncludes (strUpper (coercedText props.drclassdcd))
          "SOMEWHAT POORLY" with
      | true =>
        exact absurd
          (@strIncludes_subsumes (strUpper (coercedText props.drclassdcd))
            "POORLY" "SOMEWHAT POORLY" (by decide) hc) (by simp [ha])
      | false => simp [ha, hb, hc]

/-- C5 witness: the general direction applied to the spec example record,
whose classification evaluates concretely. -/
theorem C5_poor_drainage_iff_poorly_witness :
    deriveFlags exampleRecordC5 = some ⟨true, false, false, false⟩
    ∧ (⟨true, false, false, false⟩ : RiskFlags).poorDrainage
        = containsInsensitive (coercedText exampleRecordC5.drclassdcd) "poorly" :=
  ⟨by decide,
    C5_poor_drainage_iff_poorly.1 exampleRecordC5 ⟨true, false, false, false⟩
      (by decide)⟩

/-! ## Claim theorems: paginated query engine -/

/-- A simulated upstream serving three pages, flagging more records on the
first two only. Arbitrary offsets beyond the second fall through to the
final page. -/
def upstreamThreePages {α : Type} (p0 p1 p2 : List α) :
    Nat → ArcResponse α := fun offset =>
  if offset = 0 then ⟨true, 200, "", some p0, true⟩
  else if offset = 2000 then ⟨true, 200, "", some p1, true⟩
  else ⟨true, 200, "", some p2, false⟩

/-- A simulated upstream serving one full page at offset 0 with the
more-records flag unset, and empty unflagged pages elsewhere. -/
def upstreamFullThenEmpty {α : Type} (p0 : List α) :
    Nat → ArcResponse α := fun offset =>
  if offset = 0 then ⟨true, 200, "", some p0, false⟩
  else ⟨true, 200, "", some [], false⟩

/-- A simulated upstream whose single page already exceeds the cap. -/
def upstreamHuge : Nat → ArcResponse Nat :=
  fun _ => ⟨true, 200, "", some (List.replicate 20001 0), false⟩

theorem pagedTrace_ne_nil {α : Type} (u : Nat → ArcResponse α)
    (fuel : Nat) (hf : fuel ≠ 0) (allF : List α) (offset : Nat) :
    (querySoilsPagedAux u fuel allF offset).2 ≠ [] := by
  cases fuel with
  | zero => exact absurd rfl hf
  | succ n =>
    simp only [querySoilsPagedAux]
    split
    · simp
    · split
      · simp
      · split
        · simp
        · simp

/-- C1: on an upstream serving pages of sizes 2000, 2000 and 1500 with the
more-records flag on the first two only, the loop returns the three pages
concatenated in arrival order — 5500 records — from exactly three calls
at offsets 0, 2000 and 4000, for any fuel at least 3. In general a loop
iteration on a successful in-cap response stops (returning the
accumulated records and issuing no further call) exactly when the
transfer-limit flag is unset and the page is smaller than the page size
of 2000 (pages never exceed the requested page size). -/
theorem C1_pagination_three_pages :
    (∀ (fuel : Nat) (p0 p1 p2 : List Nat),
      p0.length = 2000 → p1.length = 2000 → p2.length = 1500 →
      querySoilsPaged (upstreamThreePages p0 p1 p2) (fuel + 1 + 1 + 1)
          = (.done (p0 ++ p1 ++ p2), [0, 2000, 4000])
        ∧ (p0 ++ p1 ++ p2).length = 5500)
    ∧ (∀ (α : Type) (u : Nat → ArcResponse α) (fuel : Nat)
        (allF : List α) (offset : Nat),
      (u offset).ok = true →
      ((u offset).features.getD []).length ≤ PAGE_SIZE →
      (allF ++ (u offset).features.getD []).length ≤ MAX_FEATURES_TOTAL →
      (querySoilsPagedAux u (fuel + 1) allF offset
          = (.done (allF ++ (u offset).features.getD []), [offset])
        ↔ ((u offset).exceededTransferLimit = false
            ∧ ((u offset).features.getD []).length < PAGE_SIZE))) := by
  constructor
  · intro fuel p0 p1 p2 h0 h1 h2
    constructor
    · simp [querySoilsPaged, querySoilsPagedAux, upstreamThreePages,
        PAGE_SIZE, MAX_FEATURES_TOTAL, h0, h1, h2, List.length_append]
    · simp [List.length_append, h0, h1, h2]
  · intro α u fuel allF offset hok hle hcap
    have hcap2 : ¬ ((allF ++ (u offset).features.getD []).length
        > MAX_FEATURES_TOTAL) := by omega
    simp only [querySoilsPagedAux, hok, Bool.not_true, Bool.false_eq_true,
      if_false, hcap2, if_neg]
    constructor
    · intro heq
      by_cases hcond : (!(u offset).exceededTransferLimit
          && !(((u offset).features.getD []).length == PAGE_SIZE)) = true
      · rw [if_pos hcond] at heq
        rw [Bool.and_eq_true, Bool.not_eq_true', Bool.not_eq_true'] at hcond
        refine ⟨hcond.1, ?_⟩
        have hne : ((u offset).features.getD []).length ≠ PAGE_SIZE :=
          by simpa using hcond.2
        omega
      · rw [if_neg hcond] at heq
        have htr : offset ::
            (querySoilsPagedAux u fuel
              (allF ++ (u offset).features.getD [])
              (offset + PAGE_SIZE)).2 = [offset] :=
          congrArg Prod.snd heq
        have hnil : (querySoilsPagedAux u fuel
            (allF ++ (u offset).features.getD [])
            (offset + PAGE_SIZE)).2 = [] := by
          simpa using htr
        cases hf : fuel with
        | zero =>
          rw [hf] at heq
          have := congrArg Prod.fst heq
          simp [querySoilsPagedAux] at this
        | succ n =>
          exact absurd hnil
            (pagedTrace_ne_nil u fuel (by omega) _ _)
    · rintro ⟨hex, hlt⟩
      have hne : (((u offset).features.getD []).length == PAGE_SIZE)
          = false := by
        simp only [beq_eq_false_iff_ne]
        omega
      rw [if_pos (by simp [hex, hne])]

/-- The three-page upstream instantiated with concrete replicate pages. -/
def upstreamC1W : Nat → ArcResponse Nat :=
  upstreamThreePages (List.replicate 2000 0) (List.replicate 2000 0)
    (List.replicate 1500 0)

/-- C1 witness: the three-page scenario instantiated with concrete pages,
and the one-step stop condition instantiated at the final page of that
scenario. -/
theorem C1_pagination_three_pages_witness :
    (querySoilsPaged upstreamC1W (0 + 1 + 1 + 1)
      = (.done (List.replicate 2000 0 ++ List.replicate 2000 0
          ++ List.replicate 1500 0), [0, 2000, 4000]))
    ∧ (querySoilsPagedAux upstreamC1W (0 + 1) ([] : List Nat) 4000
        = (.done ([] ++ (upstreamC1W 4000).features.getD []), [4000])
      ↔ ((upstreamC1W 4000).exceededTransferLimit = false
          ∧ ((upstreamC1W 4000).features.getD []).length < PAGE_SIZE)) := by
  have hpage : (upstreamC1W 4000).features.getD [] = List.replicate 1500 0 :=
    rfl
  constructor
  · exact (C1_pagination_three_pages.1 0 (List.replicate 2000 0)
      (List.replicate 2000 0) (List.replicate 1500 0)
      (List.length_replicate 2000 0) (List.length_replicate 2000 0)
      (List.length_replicate 1500 0)).1
  · exact C1_pagination_three_pages.2 Nat upstreamC1W 0 [] 4000 rfl
      (by rw [hpage, List.length_replicate]; decide)
      (by rw [List.nil_append, hpage, List.length_replicate]; decide)

/-- C2: on an upstream returning a full page of 2000 records with the
more-records flag unset, the loop issues exactly one additional call at
offset 2000 and then stops with the accumulated records. In general,
after any successful in-cap full-sized page the loop always recurses:
the call trace extends past the current offset and the continuation
issues at least one further call, so the loop never stops immediately
after a full-sized page. -/
theorem C2_conservative_continue :
    (∀ (fuel : Nat) (p0 : List Nat), p0.length = 2000 →
      querySoilsPaged (upstreamFullThenEmpty p0) (fuel + 1 + 1)
        = (.done p0, [0, 2000]))
    ∧ (∀ (α : Type) (u : Nat → ArcResponse α) (fuel : Nat)
        (allF : List α) (offset : Nat),
      (u offset).ok = true →
      (allF ++ (u offset).features.getD []).length ≤ MAX_FEATURES_TOTAL →
      ((u offset).features.getD []).length = PAGE_SIZE →
      (querySoilsPagedAux u (fuel + 1 + 1) allF offset).2
          = offset :: (querySoilsPagedAux u (fuel + 1)
              (allF ++ (u offset).features.getD []) (offset + PAGE_SIZE)).2
        ∧ (querySoilsPagedAux u (fuel + 1)
            (allF ++ (u offset).features.getD []) (offset + PAGE_SIZE)).2
          ≠ []) := by
  constructor
  · intro fuel p0 h0
    simp [querySoilsPaged, querySoilsPagedAux, upstreamFullThenEmpty,
      PAGE_SIZE, MAX_FEATURES_TOTAL, h0, List.length_append]
  · intro α u fuel allF offset hok hcap hfull
    have hcap2 : ¬ ((allF ++ (u offset).features.getD []).length
        > MAX_FEATURES_TOTAL) := by omega
    have hfull2 : (((u offset).features.getD []).length == PAGE_SIZE)
        = true := by simp [hfull]
    have hnotok : ¬ ((!(u offset).ok) = true) := by simp [hok]
    have hc3 : ¬ ((!(u offset).exceededTransferLimit
        && !(((u offset).features.getD []).length == PAGE_SIZE)) = true) := by
      simp [hfull2]
    constructor
    · rw [querySoilsPagedAux]
      dsimp only
      rw [if_neg hnotok, if_neg hcap2, if_neg hc3]
    · exact pagedTrace_ne_nil u (fuel + 1) (by omega) _ _

/-- The full-then-empty upstream instantiated with a concrete full page. -/
def upstreamC2W : Nat → ArcResponse Nat :=
  upstreamFullThenEmpty (List.replicate 2000 0)

/-- C2 witness: the concrete scenario, and the never-stop-after-full-page
step instantiated at its first call. -/
theorem C2_conservative_continue_witness :
    querySoilsPaged upstreamC2W (0 + 1 + 1)
      = (.done (List.replicate 2000 0), [0, 2000])
    ∧ ((querySoilsPagedAux upstreamC2W (0 + 1 + 1) ([] : List Nat) 0).2
        = 0 :: (querySoilsPagedAux upstreamC2W (0 + 1)
            ([] ++ (upstreamC2W 0).features.getD []) (0 + PAGE_SIZE)).2
      ∧ (querySoilsPagedAux upstreamC2W (0 + 1)
          ([] ++ (upstreamC2W 0).features.getD []) (0 + PAGE_SIZE)).2
        ≠ []) := by
  have hpage : (upstreamC2W 0).features.getD [] = List.replicate 2000 0 :=
    rfl
  refine ⟨C2_conservative_continue.1 0 (List.replicate 2000 0)
    (List.length_replicate 2000 0), ?_⟩
  exact C2_conservative_continue.2 Nat upstreamC2W 0 [] 0 rfl
    (by rw [List.nil_append, hpage, List.length_replicate]; decide)
    (by rw [hpage, List.length_replicate]; rfl)

/-- C3: whenever a successful page pushes the accumulated record count
strictly past the cap of 20000, the loop fails with the too-large error
right after concatenating that page — whatever the transfer-limit flag
and the page size say — and the call trace ends at the current offset,
so no further remote call is issued. -/
theorem C3_cap_fails_fast (α : Type) (u : Nat → ArcResponse α)
    (fuel : Nat) (allF : List α) (offset : Nat)
    (hok : (u offset).ok = true)
    (hcap : (allF ++ (u offset).features.getD []).length
      > MAX_FEATURES_TOTAL) :
    querySoilsPagedAux u (fuel + 1) allF offset
      = (.resultTooLarge, [offset]) := by
  have hnotok : ¬ ((!(u offset).ok) = true) := by simp [hok]
  rw [querySoilsPagedAux]
  dsimp only
  rw [if_neg hnotok, if_pos hcap]

/-- C3 witness: a single page of 20001 records trips the cap on the first
call, which is also the last. -/
theorem C3_cap_fails_fast_witness :
    (upstreamHuge 0).ok = true
    ∧ (([] : List Nat) ++ (upstreamHuge 0).features.getD []).length
        > MAX_FEATURES_TOTAL
    ∧ querySoilsPagedAux upstreamHuge (0 + 1) ([] : List Nat) 0
        = (.resultTooLarge, [0]) := by
  have hpage : (upstreamHuge 0).features.getD [] = List.replicate 20001 0 :=
    rfl
  have hcap : (([] : List Nat)
      ++ (upstreamHuge 0).features.getD []).length > MAX_FEATURES_TOTAL := by
    rw [List.nil_append, hpage, List.length_replicate]; decide
  exact ⟨rfl, hcap, C3_cap_fails_fast Nat upstreamHuge 0 [] 0 rfl hcap⟩

/-! ## Dedup and aggregation lemmas -/

theorem lookup_isSome_iff_mem (l : List (String × CanonicalSoilUnit))
    (k : String) : (l.lookup k).isSome ↔ k ∈ l.map Prod.fst := by
  induction l with
  | nil => simp [List.lookup]
  | cons hd tl ih =>
    obtain ⟨a, b⟩ := hd
    by_cases hk : k = a
    · subst hk
      simp [List.lookup_cons]
    · simp [List.lookup_cons, beq_false_of_ne hk, ih, hk]

theorem lookup_append_single (l : List (String × CanonicalSoilUnit))
    (k k2 : String) (u : CanonicalSoilUnit) :
    (l ++ [(k, u)]).lookup k2
      = (l.lookup k2).or (if k2 = k then some u else none) := by
  induction l with
  | nil =>
    by_cases hk : k2 = k
    · subst hk; simp [List.lookup_cons]
    · simp [List.lookup_cons, beq_false_of_ne hk, hk]
  | cons hd tl ih =>
    obtain ⟨a, b⟩ := hd
    by_cases hk : k2 = a
    · subst hk; simp [List.lookup_cons]
    · simp [List.lookup_cons, beq_false_of_ne hk, ih]

theorem buildUniqueFrom_lookup (records : List SoilProps) :
    ∀ (acc m : List (String × CanonicalSoilUnit)),
    buildUniqueFrom acc records = some m →
    ∀ key, m.lookup key = (acc.lookup key).or (firstUnitSpec records key) := by
  induction records with
  | nil =>
    intro acc m h key
    rw [buildUniqueFrom] at h
    cases h
    simp [firstUnitSpec]
  | cons p rest ih =>
    intro acc m h key
    rw [buildUniqueFrom] at h
    cases hins : insertRecord acc p with
    | none => rw [hins] at h; exact absurd h (by simp)
    | some acc2 =>
      rw [hins] at h
      have hm := ih acc2 m h key
      unfold insertRecord at hins
      by_cases hhas : (acc.lookup (identityKey p)).isSome
      · rw [if_pos hhas] at hins
        cases hins
        by_cases hk : identityKey p = key
        · subst hk
          obtain ⟨v, hv⟩ := Option.isSome_iff_exists.mp hhas
          rw [hv] at hm ⊢
          simpa using hm
        · rw [hm, firstUnitSpec, firstUnitSpec,
            List.find?_cons_of_neg _ (by simp [hk])]
      · rw [if_neg hhas] at hins
        obtain ⟨flags, hf, hacc2⟩ := Option.map_eq_some'.mp hins
        subst hacc2
        have hnone : acc.lookup (identityKey p) = none :=
          Option.not_isSome_iff_eq_none.mp hhas
        rw [hm, lookup_append_single]
        by_cases hk : identityKey p = key
        · subst hk
          rw [hnone, if_pos rfl, firstUnitSpec, firstUnitSpec,
            List.find?_cons_of_pos _ (by simp)]
          simp [hf]
        · rw [if_neg (fun h2 => hk h2.symm), firstUnitSpec, firstUnitSpec,
            List.find?_cons_of_neg _ (by simp [hk])]
          simp

theorem firstSeenKeysFrom_cons (seen : List String) (p : SoilProps)
    (rest : List SoilProps) :
    firstSeenKeysFrom seen (p :: rest)
      = firstSeenKeysFrom
          (if identityKey p ∈ seen then seen else seen ++ [identityKey p])
          rest := rfl

theorem buildUniqueFrom_keys (records : List SoilProps) :
    ∀ (acc m : List (String × CanonicalSoilUnit)),
    buildUniqueFrom acc records = some m →
    m.map Prod.fst = firstSeenKeysFrom (acc.map Prod.fst) records := by
  induction records with
  | nil =>
    intro acc m h
    rw [buildUniqueFrom] at h
    cases h
    rfl
  | cons p rest ih =>
    intro acc m h
    rw [buildUniqueFrom] at h
    cases hins : insertRecord acc p with
    | none => rw [hins] at h; exact absurd h (by simp)
    | some acc2 =>
      rw [hins] at h
      have hm := ih acc2 m h
      unfold insertRecord at hins
      rw [firstSeenKeysFrom_cons]
      by_cases hhas : (acc.lookup (identityKey p)).isSome
      · rw [if_pos hhas] at hins
        cases hins
        rw [if_pos ((lookup_isSome_iff_mem acc (identityKey p)).mp hhas)]
        exact hm
      · rw [if_neg hhas] at hins
        obtain ⟨flags, hf, hacc2⟩ := Option.map_eq_some'.mp hins
        subst hacc2
        rw [if_neg (fun hmem =>
          hhas ((lookup_isSome_iff_mem acc (identityKey p)).mpr hmem))]
        rw [hm]
        simp

theorem firstSeenKeysFrom_nodup (records : List SoilProps) :
    ∀ seen : List String, seen.Nodup → (firstSeenKeysFrom seen records).Nodup := by
  induction records with
  | nil => intro seen h; exact h
  | cons p rest ih =>
    intro seen h
    rw [firstSeenKeysFrom_cons]
    by_cases hmem : identityKey p ∈ seen
    · rw [if_pos hmem]; exact ih seen h
    · rw [if_neg hmem]
      exact ih _ (by simp [List.nodup_append, h, hmem])

theorem mem_firstSeenKeysFrom (records : List SoilProps) :
    ∀ (seen : List String) (k : String),
    k ∈ firstSeenKeysFrom seen records
      ↔ k ∈ seen ∨ ∃ p ∈ records, identityKey p = k := by
  induction records with
  | nil =>
    intro seen k
    rw [show firstSeenKeysFrom seen [] = seen from rfl]
    simp
  | cons p rest ih =>
    intro seen k
    rw [firstSeenKeysFrom_cons]
    by_cases hmem : identityKey p ∈ seen
    · rw [if_pos hmem, ih]
      constructor
      · rintro (h | ⟨q, hq, hqk⟩)
        · exact Or.inl h
        · exact Or.inr ⟨q, List.mem_cons_of_mem p hq, hqk⟩
      · rintro (h | ⟨q, hq, hqk⟩)
        · exact Or.inl h
        · rcases List.mem_cons.mp hq with rfl | hq2
          · exact Or.inl (hqk ▸ hmem)
          · exact Or.inr ⟨q, hq2, hqk⟩
    · rw [if_neg hmem, ih]
      constructor
      · rintro (h | ⟨q, hq, hqk⟩)
        · rcases List.mem_append.mp h with h2 | h2
          · exact Or.inl h2
          · exact Or.inr ⟨p, List.mem_cons_self p rest,
              (List.mem_singleton.mp h2).symm⟩
        · exact Or.inr ⟨q, List.mem_cons_of_mem p hq, hqk⟩
      · rintro (h | ⟨q, hq, hqk⟩)
        · exact Or.inl (List.mem_append.mpr (Or.inl h))
        · rcases List.mem_cons.mp hq with rfl | hq2
          · exact Or.inl (List.mem_append.mpr (Or.inr
              (List.mem_singleton.mpr hqk.symm)))
          · exact Or.inr ⟨q, hq2, hqk⟩

theorem aggregateFlags_eq_countP (units : List CanonicalSoilUnit) :
    aggregateFlags units
      = ⟨units.countP (fun u => u.flags.poorDrainage),
         units.countP (fun u => u.flags.hydricLikely),
         units.countP (fun u => u.flags.floodingRisk),
         units.countP (fun u => u.flags.pondingRisk)⟩ := by
  suffices h : ∀ (init : AggregateSummary),
      units.foldl
        (fun agg u =>
          { poorDrainage := agg.poorDrainage + flagIncr u.flags.poorDrainage
            hydricLikely := agg.hydricLikely + flagIncr u.flags.hydricLikely
            floodingRisk := agg.floodingRisk + flagIncr u.flags.floodingRisk
            pondingRisk := agg.pondingRisk + flagIncr u.flags.pondingRisk })
        init
      = ⟨init.poorDrainage + units.countP (fun u => u.flags.poorDrainage),
         init.hydricLikely + units.countP (fun u => u.flags.hydricLikely),
         init.floodingRisk + units.countP (fun u => u.flags.floodingRisk),
         init.pondingRisk + units.countP (fun u => u.flags.pondingRisk)⟩ by
    rw [aggregateFlags, h ⟨0, 0, 0, 0⟩]
    simp
  induction units with
  | nil => intro init; simp
  | cons u rest ih =>
    intro init
    rw [List.foldl_cons, ih]
    cases hpd : u.flags.poorDrainage <;> cases hhy : u.flags.hydricLikely <;>
      cases hfr : u.flags.floodingRisk <;> cases hpr : u.flags.pondingRisk <;>
      simp [flagIncr, List.countP_cons, hpd, hhy, hfr, hpr] <;> omega

/-! ## Claim theorems: deduplication and aggregation -/

/-- C6: the dedup loop processes records in arrival order under the
(musym, muname, mukey) identity key: the stored unit for any key is built
from the first record bearing that key (so later records with the same
key never overwrite stored attributes or flags); each aggregate counter
equals the number of distinct stored units whose corresponding flag is
true, hence is bounded by the distinct-unit count. -/
theorem C6_first_wins_and_counters (records : List SoilProps)
    (m : List (String × CanonicalSoilUnit))
    (h : buildUnique records = some m) :
    (∀ key, m.lookup key = firstUnitSpec records key)
    ∧ aggregateFlags (m.map Prod.snd)
        = ⟨(m.map Prod.snd).countP (fun u => u.flags.poorDrainage),
           (m.map Prod.snd).countP (fun u => u.flags.hydricLikely),
           (m.map Prod.snd).countP (fun u => u.flags.floodingRisk),
           (m.map Prod.snd).countP (fun u => u.flags.pondingRisk)⟩
    ∧ (m.map Prod.snd).countP (fun u => u.flags.poorDrainage) ≤ m.length
    ∧ (m.map Prod.snd).countP (fun u => u.flags.hydricLikely) ≤ m.length
    ∧ (m.map Prod.snd).countP (fun u => u.flags.floodingRisk) ≤ m.length
    ∧ (m.map Prod.snd).countP (fun u => u.flags.pondingRisk) ≤ m.length := by
  have hl := buildUniqueFrom_lookup records [] m h
  refine ⟨fun key => by simpa [List.lookup] using hl key,
    aggregateFlags_eq_countP (m.map Prod.snd), ?_, ?_, ?_, ?_⟩ <;>
    exact (List.countP_le_length _).trans
      (Nat.le_of_eq (List.length_map _ _))

/-- A record seen twice, carrying a poorly-drained drainage class. -/
def recA : SoilProps :=
  { musym := .str "A", drclassdcd := .str "Very poorly drained" }

/-- Two raw records sharing one identity key. -/
def recsC6 : List SoilProps := [recA, recA]

/-- The single stored unit the dedup loop produces for `recsC6`. -/
def unitA : CanonicalSoilUnit :=
  { mukey := .null, musym := .str "A", muname := .null,
    drclassdcd := .str "Very poorly drained", hydgrpdcd := .null,
    hydclprs := .null, flodfreqdcd := .null, pondfreqprs := .null,
    wtdepannmin := .null, wtdepaprjunmin := .null, wss_link := .null,
    flags := ⟨true, false, false, false⟩ }

/-- The dedup map for `recsC6`: one entry despite two raw records. -/
def mC6 : List (String × CanonicalSoilUnit) := [("A||", unitA)]

/-- C6 witness: two records sharing a key fold into one unit; the theorem
applies with its hypothesis evaluated on that concrete input. -/
theorem C6_first_wins_and_counters_witness :
    buildUnique recsC6 = some mC6
    ∧ (∀ key, mC6.lookup key = firstUnitSpec recsC6 key)
    ∧ (mC6.map Prod.snd).countP (fun u => u.flags.poorDrainage)
        ≤ mC6.length :=
  ⟨by decide, (C6_first_wins_and_counters recsC6 mC6 (by decide)).1,
    (C6_first_wins_and_counters recsC6 mC6 (by decide)).2.2.1⟩

/-- C7: the response payload truncates the stored units to the first 50 in
first-seen insertion order with no further sorting (its key sequence is
exactly the distinct identity keys in first-seen order, duplicate-free
and covering exactly the keys of the input records), while
distinctMapUnits reports the full distinct-unit count and count the raw
record count. -/
theorem C7_truncation_and_totals (records : List SoilProps)
    (payload : SoilsPayload) (h : buildPayload records = some payload) :
    payload.uniqueMapUnits.length ≤ 50
    ∧ (∃ m, buildUnique records = some m
        ∧ payload.uniqueMapUnits = (m.map Prod.snd).take 50
        ∧ m.map Prod.fst = firstSeenKeys records
        ∧ payload.distinctMapUnits = (firstSeenKeys records).length)
    ∧ (firstSeenKeys records).Nodup
    ∧ (∀ k, k ∈ firstSeenKeys records ↔ ∃ p ∈ records, identityKey p = k)
    ∧ payload.count = records.length := by
  unfold buildPayload at h
  cases hb : buildUnique records with
  | none => rw [hb] at h; exact absurd h (by simp)
  | some m =>
    rw [hb] at h
    simp only [Option.map_some', Option.some.injEq] at h
    subst h
    have hkeys : m.map Prod.fst = firstSeenKeys records := by
      simpa using buildUniqueFrom_keys records [] m hb
    refine ⟨?_, ⟨m, rfl, rfl, hkeys, ?_⟩, ?_, ?_, rfl⟩
    · exact List.length_take_le 50 (m.map Prod.snd)
    · show m.length = (firstSeenKeys records).length
      rw [← hkeys, List.length_map]
    · exact firstSeenKeysFrom_nodup records [] List.nodup_nil
    · intro k
      simpa using mem_firstSeenKeysFrom records [] k

/-- A single one-record input for the payload witness. -/
def recB : SoilProps := { muname := .str "B" }

/-- The record list for the C7 witness. -/
def recsC7 : List SoilProps := [recB]

/-- The stored unit for `recB`. -/
def unitB : CanonicalSoilUnit :=
  { mukey := .null, musym := .null, muname := .str "B", drclassdcd := .null,
    hydgrpdcd := .null, hydclprs := .null, flodfreqdcd := .null,
    pondfreqprs := .null, wtdepannmin := .null, wtdepaprjunmin := .null,
    wss_link := .null, flags := ⟨false, false, false, false⟩ }

/-- The payload the pipeline produces for `recsC7`. -/
def payloadC7 : SoilsPayload :=
  { count := 1, distinctMapUnits := 1,
    aggregateFlagsByMapUnit := ⟨0, 0, 0, 0⟩, uniqueMapUnits := [unitB] }

/-- C7 witness: the payload theorem applied to a concrete one-record
input, its hypothesis evaluated. -/
theorem C7_truncation_and_totals_witness :
    buildPayload recsC7 = some payloadC7
    ∧ payloadC7.uniqueMapUnits.length ≤ 50
    ∧ payloadC7.count = recsC7.length :=
  ⟨by decide, (C7_truncation_and_totals recsC7 payloadC7 (by decide)).1,
    (C7_truncation_and_totals recsC7 payloadC7 (by decide)).2.2.2.2⟩

end Landsage
